import Mathlib

/-!
Shallow embedding of the Subject Performance Model from `src/main.py`
(class `SubjectPerformanceModel`).  Parameter values and scores are
modelled as exact rationals; the JSON parameter store and the bulk-import
files are modelled as abstract parsed values; the file system is part of
the model state, so persistence is observable.
-/

namespace PassFail

/-- The five recognized parameter names (keys of `confirmed_parameters`). -/
inductive Param : Type
  | preparedness
  | teaching
  | materials
  | participation
  | difficulty
deriving DecidableEq, Fintype

/-- Insertion order of the parameter dict created in `__init__` —
the iteration order of every loop over `self.confirmed_parameters`. -/
def paramList : List Param :=
  [Param.preparedness, Param.teaching, Param.materials, Param.participation, Param.difficulty]

/-- The Python dict key for each parameter. -/
def paramName : Param → String
  | Param.preparedness => "preparedness"
  | Param.teaching => "teaching"
  | Param.materials => "materials"
  | Param.participation => "participation"
  | Param.difficulty => "difficulty"

/-- Dict-key lookup used by `update_pending_parameters`
(`if param in self.pending_parameters`). -/
def paramOfName (name : String) : Option Param :=
  if name = "preparedness" then some Param.preparedness
  else if name = "teaching" then some Param.teaching
  else if name = "materials" then some Param.materials
  else if name = "participation" then some Param.participation
  else if name = "difficulty" then some Param.difficulty
  else none

/-- Contents of the persisted store `subject_parameters.json`:
the file may be absent, unreadable (any exception while opening or
parsing), or a JSON object holding a subset of the recognized keys. -/
inductive Store : Type
  | absent
  | corrupt
  | data (m : Param → Option ℚ)

/-- State of a `SubjectPerformanceModel` instance, together with the
persisted store (the file system) and a counter of completed writes to
the store, so that "no persisted write" is observable. -/
structure State : Type where
  confirmed_parameters : Param → ℚ
  pending_parameters : Param → ℚ
  performance_history : List ℚ
  time_steps : List ℕ
  current_time : ℕ
  store : Store
  saveCount : ℕ

/-- Embedding of `load_parameters` (lines 25–36): if the file exists and
parses, every recognized key present in the data overwrites both the
confirmed and the pending entry; an exception is caught and only logged. -/
def load_parameters (s : State) : State :=
  match s.store with
  | Store.absent => s
  | Store.corrupt => s
  | Store.data m =>
      { s with
        confirmed_parameters := fun p => (m p).getD (s.confirmed_parameters p)
        pending_parameters := fun p => (m p).getD (s.pending_parameters p) }

/-- Embedding of `save_parameters` (lines 38–44): full overwrite of the
store with the confirmed parameters. -/
def save_parameters (s : State) : State :=
  { s with
    store := Store.data (fun p => some (s.confirmed_parameters p))
    saveCount := s.saveCount + 1 }

/-- Embedding of `__init__` (lines 11–23) run against a given store
content: defaults of 50 everywhere, pending a copy of confirmed, empty
series, counter 0, then `load_parameters`. -/
def initModel (st : Store) : State :=
  load_parameters
    { confirmed_parameters := fun _ => 50
      pending_parameters := fun _ => 50
      performance_history := []
      time_steps := []
      current_time := 0
      store := st
      saveCount := 0 }

/-- Embedding of `update_pending_parameters` (lines 46–50): each pair
whose key is a recognized parameter name overwrites the pending entry;
unrecognized keys are ignored.  The values are NOT clamped here. -/
def update_pending_parameters (s : State) (params : List (String × ℚ)) : State :=
  params.foldl
    (fun st kv =>
      match paramOfName kv.1 with
      | some p =>
          { st with pending_parameters := Function.update st.pending_parameters p kv.2 }
      | none => st)
    s

/-- The fixed weight table of `calculate_performance` (lines 73–79). -/
def weights : Param → ℚ
  | Param.preparedness => 0.3
  | Param.teaching => 0.3
  | Param.materials => 0.2
  | Param.participation => 0.15
  | Param.difficulty => -0.05

/-- Weighted score before storage: the clamped weighted sum of
`calculate_performance` (lines 82–86): `max(0, min(100, Σ v·w))`. -/
def scoreOf (c : Param → ℚ) : ℚ :=
  max 0 (min 100 ((paramList.map (fun p => c p * weights p)).sum))

/-- Embedding of `calculate_performance` (lines 71–93): computes the
clamped weighted score over the confirmed parameters, appends it to the
history, appends the current time counter to the time steps, increments
the counter, and returns the score. -/
def calculate_performance (s : State) : ℚ × State :=
  let score := scoreOf s.confirmed_parameters
  (score,
    { s with
      performance_history := s.performance_history ++ [score]
      time_steps := s.time_steps ++ [s.current_time]
      current_time := s.current_time + 1 })

/-- One line of the change log built by `confirm_parameters` (line 61).
None of the five key names contains an underscore, so the Python
`param.replace(underscore, space)` is the identity on them. -/
def confirmLine (p : Param) (oldVal newVal : ℚ) : String :=
  paramName p ++ ": " ++ toString oldVal ++ " → " ++ toString newVal

/-- The key-by-key loop of `confirm_parameters` (lines 57–63), carrying
the change log, the (mutating) confirmed map and the `changes_made`
flag. -/
def confirmLoop (pending : Param → ℚ) :
    List String × (Param → ℚ) × Bool → List Param → List String × (Param → ℚ) × Bool
  | acc, [] => acc
  | (log, conf, changed), p :: rest =>
      if conf p ≠ pending p then
        confirmLoop pending
          (log ++ [confirmLine p (conf p) (pending p)],
            Function.update conf p (pending p), true) rest
      else
        confirmLoop pending (log, conf, changed) rest

/-- Embedding of `confirm_parameters` (lines 52–69): diff pending
against confirmed in key order; with at least one change, commit, save,
recalculate and return the newline-joined log; otherwise return `None`. -/
def confirm_parameters (s : State) : Option String × State :=
  let r := confirmLoop s.pending_parameters ([], s.confirmed_parameters, false) paramList
  if r.2.2 then
    let s1 := save_parameters { s with confirmed_parameters := r.2.1 }
    (some (String.intercalate "\n" r.1), (calculate_performance s1).2)
  else
    (none, s)

/-- Embedding of `predict_pass_fail` (lines 95–111): classify the most
recent score, or report the absence of data. -/
def predict_pass_fail (s : State) : String × String × String :=
  match s.performance_history.getLast? with
  | none => ("No data", "black", "gray")
  | some current_score =>
      if current_score ≥ 70 then ("High pass chance", "green", "#ddffdd")
      else if current_score ≥ 60 then ("Likely to pass", "darkgreen", "#eeffee")
      else if current_score ≥ 50 then ("Borderline", "blue", "#ffffdd")
      else if current_score ≥ 40 then ("Risk of failing", "orange", "#ffeeee")
      else ("High fail chance", "red", "#ffdddd")

/-- Python slice `l[-5:]`: the last `min(5, length)` elements. -/
def lastFive {α : Type} (l : List α) : List α := l.drop (l.length - 5)

/-- Dot product of two equal-length sequences. -/
def dotSum (xs ys : List ℚ) : ℚ := (List.zipWith (fun a b => a * b) xs ys).sum

/-- Exact-arithmetic embedding of `np.polyfit(x, y, 1)[0]`: the slope of
the ordinary least-squares degree-1 fit,
`(n·Σxy − Σx·Σy) / (n·Σx² − (Σx)²)`. -/
def polyfitSlope (xs ys : List ℚ) : ℚ :=
  ((xs.length : ℚ) * dotSum xs ys - xs.sum * ys.sum) /
    ((xs.length : ℚ) * dotSum xs xs - xs.sum * xs.sum)

/-- Embedding of `predict_trend` (lines 113–136): with fewer than 2
history points report no data; otherwise fit a line to the last 5
(time, score) pairs and classify the slope. -/
def predict_trend (s : State) : String × String :=
  if s.performance_history.length < 2 then ("Not enough data", "black")
  else
    let x := (lastFive s.time_steps).map (fun t : ℕ => (t : ℚ))
    let y := lastFive s.performance_history
    if x.length < 2 then ("Not enough data", "black")
    else
      let slope := polyfitSlope x y
      if slope > 1.5 then ("Rapid improvement 📈", "green")
      else if slope > 0.5 then ("Improving ↗", "darkgreen")
      else if slope > -0.5 then ("Stable ↔", "blue")
      else if slope > -1.5 then ("Declining ↘", "orange")
      else ("Rapid decline 📉", "red")

/-- Clamp used on every imported field (lines 158–162, 171–175):
`min(max(v, 0), 100)`. -/
def clampQ (v : ℚ) : ℚ := min (max v 0) 100

/-- Confirmed parameters built from one imported row: each recognized
field read with default 50, then clamped to [0, 100].  For CSV, `none`
stands for a cell that was absent or non-numeric — `pd.to_numeric(...,
errors=coerce).fillna(50)` and the `df[col] = 50` default column both
turn it into 50 before the row is read. -/
def rowParams (row : Param → Option ℚ) : Param → ℚ :=
  fun p => clampQ ((row p).getD 50)

/-- A JSON value found in a bulk-import entry: a number, or a
non-numeric value (modelled by its string form). -/
inductive JVal : Type
  | num (q : ℚ)
  | str (v : String)

/-- CPython TypeError text raised by `max(v, 0)` when `v` is a string;
json entries, unlike CSV cells, are not coerced before use. -/
def strIntCompareError : String :=
  "'>' not supported between instances of 'str' and 'int'"

/-- Read of one recognized field from a JSON entry, `entry.get(p, 50)`
followed by the `max` comparison that raises on non-numeric values. -/
def jsonField (entry : Param → Option JVal) (p : Param) : Except String ℚ :=
  match entry p with
  | none => Except.ok 50
  | some (JVal.num q) => Except.ok q
  | some (JVal.str _) => Except.error strIntCompareError

/-- The dict literal of lines 170–176: the five fields are read in
source order, so the first non-numeric field raises before the
confirmed parameters are replaced. -/
def entryParams (entry : Param → Option JVal) : Except String (Param → ℚ) := do
  let a ← jsonField entry Param.preparedness
  let b ← jsonField entry Param.teaching
  let c ← jsonField entry Param.materials
  let d ← jsonField entry Param.participation
  let e ← jsonField entry Param.difficulty
  pure fun p =>
    match p with
    | Param.preparedness => clampQ a
    | Param.teaching => clampQ b
    | Param.materials => clampQ c
    | Param.participation => clampQ d
    | Param.difficulty => clampQ e

/-- The CSV per-row loop (lines 156–164): replace the whole confirmed
set with the row's clamped values, then score once. -/
def importCsvRows (s : State) (rows : List (Param → Option ℚ)) : State :=
  rows.foldl
    (fun st row => (calculate_performance { st with confirmed_parameters := rowParams row }).2)
    s

/-- The JSON per-entry loop (lines 169–177): like the CSV loop, but a
non-numeric field raises, stopping the loop with the state mutated so
far. -/
def importJsonEntries : State → List (Param → Option JVal) → Option String × State
  | s, [] => (none, s)
  | s, e :: rest =>
      match entryParams e with
      | Except.error msg => (some msg, s)
      | Except.ok c =>
          importJsonEntries (calculate_performance { s with confirmed_parameters := c }).2 rest

/-- A bulk-import file: its path name, and what each parser would
produce on its content.  `csvParse` is the outcome of `pd.read_csv`
plus the numeric coercion of lines 150–154 (error: any exception while
reading, e.g. a missing file); `jsonParse` is the outcome of
`open`/`json.load` on the same file. -/
structure DataFile : Type where
  name : String
  csvParse : Except String (List (Param → Option ℚ))
  jsonParse : Except String (List (Param → Option JVal))

/-- Suffix test `data_file.endswith(suffix)`. -/
def endsWithStr (s suffix : String) : Bool := suffix.data.isSuffixOf s.data

/-- The destructive reset at the top of `import_bulk_data`
(lines 141–144). -/
def resetSeries (s : State) : State :=
  { s with performance_history := [], time_steps := [], current_time := 0 }

/-- Success message of line 180. -/
def importedMsg (n : ℕ) : String :=
  "Successfully imported " ++ toString n ++ " records"

/-- Failure message of line 183. -/
def importFailMsg (e : String) : String := "Import failed: " ++ e

/-- Embedding of `import_bulk_data` (lines 138–183): reset the series,
branch on the file suffix, replay the rows, save, and report the count;
any exception is converted into a failure pair, the state mutated so
far kept as is. -/
def import_bulk_data (s : State) (f : DataFile) : (Bool × String) × State :=
  let s0 := resetSeries s
  if endsWithStr f.name ".csv" then
    match f.csvParse with
    | Except.error e => ((false, importFailMsg e), s0)
    | Except.ok rows =>
        let s1 := importCsvRows s0 rows
        ((true, importedMsg s1.performance_history.length), save_parameters s1)
  else if endsWithStr f.name ".json" then
    match f.jsonParse with
    | Except.error e => ((false, importFailMsg e), s0)
    | Except.ok entries =>
        match importJsonEntries s0 entries with
        | (some e, s1) => ((false, importFailMsg e), s1)
        | (none, s1) => ((true, importedMsg s1.performance_history.length), save_parameters s1)
  else
    ((true, importedMsg s0.performance_history.length), save_parameters s0)

/-- One externally triggered model operation. -/
inductive Op : Type
  | update (params : List (String × ℚ))
  | confirm
  | calculate
  | importData (f : DataFile)

/-- Run one operation, keeping only the state. -/
def runOp (s : State) : Op → State
  | Op.update ps => update_pending_parameters s ps
  | Op.confirm => (confirm_parameters s).2
  | Op.calculate => (calculate_performance s).2
  | Op.importData f => (import_bulk_data s f).2

/-- Run a sequence of operations. -/
def runOps (s : State) (ops : List Op) : State := ops.foldl runOp s

/-- A parameter value in the documented range. -/
def InRange (v : ℚ) : Prop := 0 ≤ v ∧ v ≤ 100

instance (v : ℚ) : Decidable (InRange v) := by unfold InRange; infer_instance

/-- Both parameter sets hold values in [0, 100] at every key. -/
def ParamsInRange (s : State) : Prop :=
  ∀ p : Param, InRange (s.confirmed_parameters p) ∧ InRange (s.pending_parameters p)

instance (s : State) : Decidable (ParamsInRange s) := by unfold ParamsInRange; infer_instance

/-- Operations whose injected values stay in [0, 100]: the UI only ever
passes slider values between 0 and 100 to `update_pending_parameters`. -/
def OpValuesInRange : Op → Prop
  | Op.update ps => ∀ kv ∈ ps, InRange kv.2
  | _ => True

/-- A convenient concrete start state: the defaults of `__init__` with
no store file present. -/
def baseState : State :=
  { confirmed_parameters := fun _ => 50
    pending_parameters := fun _ => 50
    performance_history := []
    time_steps := []
    current_time := 0
    store := Store.absent
    saveCount := 0 }

/-! Helper lemmas. -/

lemma paramList_nodup : paramList.Nodup := by decide

lemma mem_paramList (p : Param) : p ∈ paramList := by cases p <;> decide

lemma confirmLoop_eq (pending : Param → ℚ) :
    ∀ (l : List Param), l.Nodup → ∀ (log : List String) (conf : Param → ℚ) (changed : Bool),
      confirmLoop pending (log, conf, changed) l =
        (log ++ (l.filter (fun p => decide (conf p ≠ pending p))).map
            (fun p => confirmLine p (conf p) (pending p)),
          fun q => if q ∈ l ∧ conf q ≠ pending q then pending q else conf q,
          changed || l.any (fun p => decide (conf p ≠ pending p))) := by
  intro l
  induction l with
  | nil =>
      intro _ log conf changed
      simp only [confirmLoop, List.filter_nil, List.map_nil, List.append_nil, List.any_nil,
        Bool.or_false, List.not_mem_nil, false_and, if_false]
  | cons p rest ih =>
      intro hnd log conf changed
      have hp : p ∉ rest := (List.nodup_cons.1 hnd).1
      have hrest : rest.Nodup := (List.nodup_cons.1 hnd).2
      by_cases hc : conf p = pending p
      · rw [confirmLoop, if_neg (by simpa using hc), ih hrest]
        refine congrArg₂ Prod.mk ?_ (congrArg₂ Prod.mk ?_ ?_)
        · simp [hc]
        · funext q
          rcases eq_or_ne q p with rfl | hqp
          · simp [hc, List.mem_cons]
          · simp [List.mem_cons, hqp]
        · simp [hc]
      · rw [confirmLoop, if_pos hc, ih hrest]
        have hconf : ∀ q ∈ rest, Function.update conf p (pending p) q = conf q := by
          intro q hq
          exact Function.update_noteq (by rintro rfl; exact hp hq) _ _
        refine congrArg₂ Prod.mk ?_ (congrArg₂ Prod.mk ?_ ?_)
        · rw [List.append_assoc]
          refine congrArg (log ++ ·) ?_
          rw [List.filter_congr (fun q hq => by rw [hconf q hq])]
          have hmap : (List.filter (fun q => decide (conf q ≠ pending q)) rest).map
                (fun q => confirmLine q (Function.update conf p (pending p) q) (pending q)) =
              (List.filter (fun q => decide (conf q ≠ pending q)) rest).map
                (fun q => confirmLine q (conf q) (pending q)) := by
            refine List.map_congr_left (fun q hq => ?_)
            rw [hconf q (List.mem_of_mem_filter hq)]
          rw [hmap]
          simp [hc]
        · funext q
          rcases eq_or_ne q p with rfl | hqp
          · simp [hp, Function.update_same, List.mem_cons, hc]
          · rw [Function.update_noteq hqp]
            simp [List.mem_cons, hqp]
        · simp [hc]

lemma intercalate_go_length (s : String) :
    ∀ (xs : List String) (acc : String),
      acc.length ≤ (String.intercalate.go acc s xs).length := by
  intro xs
  induction xs with
  | nil => intro acc; exact Nat.le_refl _
  | cons a as ih =>
      intro acc
      calc acc.length ≤ (acc ++ s ++ a).length := by
            simp only [String.length_append]
            omega
        _ ≤ (String.intercalate.go (acc ++ s ++ a) s as).length := ih _

lemma intercalate_cons_ne_empty (x : String) (xs : List String) (hx : x ≠ "") :
    String.intercalate "\n" (x :: xs) ≠ "" := by
  intro h
  have hx0 : x.length ≠ 0 := by
    intro h0
    have hd : x.data = [] := List.length_eq_zero.1 h0
    exact hx (String.ext (hd.trans rfl))
  have hlen : x.length ≤ (String.intercalate "\n" (x :: xs)).length :=
    intercalate_go_length "\n" xs x
  rw [h] at hlen
  have hz : ("" : String).length = 0 := rfl
  omega

lemma confirmLine_ne_empty (p : Param) (a b : ℚ) : confirmLine p a b ≠ "" := by
  intro h
  have hlen : 0 < (confirmLine p a b).length := by
    unfold confirmLine
    simp only [String.length_append]
    have hn : 0 < (paramName p).length := by cases p <;> decide
    omega
  rw [h] at hlen
  have hz : ("" : String).length = 0 := rfl
  omega

/-- State with one pending edit (teaching slider moved to 80) over the
default start state. -/
def pendingState : State :=
  { baseState with
    pending_parameters := Function.update (fun _ => (50 : ℚ)) Param.teaching 80 }

/-- C1: calculate_performance returns the clamped fixed-weight sum
0.3·preparedness + 0.3·teaching + 0.2·materials + 0.15·participation
− 0.05·difficulty over the confirmed parameters, appends exactly that
score to the history, appends the current time counter to the time
steps, increments the counter by 1, and the returned score always lies
in [0, 100] (in particular for parameter sets with values in
[0, 100]). -/
theorem calculate_performance_spec (s : State) :
    (calculate_performance s).1 =
        max 0 (min 100
          (0.3 * s.confirmed_parameters Param.preparedness
            + 0.3 * s.confirmed_parameters Param.teaching
            + 0.2 * s.confirmed_parameters Param.materials
            + 0.15 * s.confirmed_parameters Param.participation
            + (-0.05) * s.confirmed_parameters Param.difficulty)) ∧
    (calculate_performance s).2.performance_history
        = s.performance_history ++ [(calculate_performance s).1] ∧
    (calculate_performance s).2.time_steps = s.time_steps ++ [s.current_time] ∧
    (calculate_performance s).2.current_time = s.current_time + 1 ∧
    0 ≤ (calculate_performance s).1 ∧ (calculate_performance s).1 ≤ 100 := by
  have hsum : (paramList.map (fun p => s.confirmed_parameters p * weights p)).sum =
      0.3 * s.confirmed_parameters Param.preparedness
        + 0.3 * s.confirmed_parameters Param.teaching
        + 0.2 * s.confirmed_parameters Param.materials
        + 0.15 * s.confirmed_parameters Param.participation
        + (-0.05) * s.confirmed_parameters Param.difficulty := by
    simp only [paramList, List.map_cons, List.map_nil, List.sum_cons, List.sum_nil, weights]
    ring
  refine ⟨?_, rfl, rfl, rfl, ?_, ?_⟩
  · show scoreOf s.confirmed_parameters = _
    rw [scoreOf, hsum]
  · exact le_max_left 0 _
  · exact max_le (by norm_num) (min_le_left _ _)

/-- C4: when pending equals confirmed on every key, confirm_parameters
returns the null "no changes" signal and leaves the whole state — series,
counter, both parameter sets and the persisted store — exactly as it
was. -/
theorem confirm_parameters_noop (s : State)
    (h : ∀ p, s.confirmed_parameters p = s.pending_parameters p) :
    confirm_parameters s = (none, s) := by
  unfold confirm_parameters
  rw [confirmLoop_eq _ paramList paramList_nodup]
  simp [h]

/-- Witness for C4: confirming the default start state (pending equal to
confirmed everywhere) is a no-op. -/
theorem confirm_parameters_noop_witness :
    (∀ p, baseState.confirmed_parameters p = baseState.pending_parameters p) ∧
    confirm_parameters baseState = (none, baseState) :=
  ⟨fun _ => rfl, confirm_parameters_noop baseState (fun _ => rfl)⟩

/-- C3: when at least one key differs between pending and confirmed,
confirm_parameters returns the newline-joined change log — one
"param: old → new" line per differing key, in the insertion order of
the parameter names — as a non-empty string, overwrites confirmed with
pending, persists the full confirmed set (one store write), and appends
exactly one new score point to the series. -/
theorem confirm_parameters_commits (s : State)
    (h : ∃ p, s.confirmed_parameters p ≠ s.pending_parameters p) :
    (confirm_parameters s).1 =
        some (String.intercalate "\n"
          ((paramList.filter
              (fun p => decide (s.confirmed_parameters p ≠ s.pending_parameters p))).map
            (fun p => confirmLine p (s.confirmed_parameters p) (s.pending_parameters p)))) ∧
    (∀ msg, (confirm_parameters s).1 = some msg → msg ≠ "") ∧
    (∀ q, (confirm_parameters s).2.confirmed_parameters q = s.pending_parameters q) ∧
    (confirm_parameters s).2.pending_parameters = s.pending_parameters ∧
    (confirm_parameters s).2.store = Store.data (fun p => some (s.pending_parameters p)) ∧
    (confirm_parameters s).2.saveCount = s.saveCount + 1 ∧
    (confirm_parameters s).2.performance_history
        = s.performance_history ++ [scoreOf s.pending_parameters] ∧
    (confirm_parameters s).2.time_steps = s.time_steps ++ [s.current_time] ∧
    (confirm_parameters s).2.current_time = s.current_time + 1 := by
  obtain ⟨p0, hp0⟩ := h
  have hchanged : (false || paramList.any
      (fun p => decide (s.confirmed_parameters p ≠ s.pending_parameters p))) = true := by
    simp only [Bool.false_or, List.any_eq_true, decide_eq_true_eq]
    exact ⟨p0, mem_paramList p0, hp0⟩
  have hconf : (fun q => if q ∈ paramList ∧ s.confirmed_parameters q ≠ s.pending_parameters q
      then s.pending_parameters q else s.confirmed_parameters q) = s.pending_parameters := by
    funext q
    by_cases hd : s.confirmed_parameters q ≠ s.pending_parameters q
    · simp [mem_paramList q, hd]
    · push_neg at hd
      simp [hd]
  have hne : String.intercalate "\n"
      ((paramList.filter
          (fun p => decide (s.confirmed_parameters p ≠ s.pending_parameters p))).map
        (fun p => confirmLine p (s.confirmed_parameters p) (s.pending_parameters p))) ≠ "" := by
    rcases hfe : paramList.filter
        (fun p => decide (s.confirmed_parameters p ≠ s.pending_parameters p)) with _ | ⟨q, qs⟩
    · exfalso
      have : p0 ∈ paramList.filter
          (fun p => decide (s.confirmed_parameters p ≠ s.pending_parameters p)) :=
        List.mem_filter.2 ⟨mem_paramList p0, by simpa using hp0⟩
      rw [hfe] at this
      exact absurd this (List.not_mem_nil p0)
    · exact intercalate_cons_ne_empty _ _ (confirmLine_ne_empty q _ _)
  unfold confirm_parameters
  rw [confirmLoop_eq _ paramList paramList_nodup]
  refine ⟨?_, ?_, ?_, ?_, ?_, ?_, ?_, ?_, ?_⟩ <;>
    simp only [hchanged, if_true, hconf, List.nil_append]
  · intro msg hmsg
    exact (Option.some.inj hmsg) ▸ hne
  · intro q
    rfl
  all_goals rfl

/-- Witness for C3: confirming one pending change (teaching 50 → 80)
commits the pending value into the confirmed set. -/
theorem confirm_parameters_commits_witness :
    (∃ p, pendingState.confirmed_parameters p ≠ pendingState.pending_parameters p) ∧
    (∀ q, (confirm_parameters pendingState).2.confirmed_parameters q
        = pendingState.pending_parameters q) :=
  ⟨⟨Param.teaching, by norm_num [pendingState, baseState, Function.update_same]⟩,
    (confirm_parameters_commits pendingState
      ⟨Param.teaching, by norm_num [pendingState, baseState, Function.update_same]⟩).2.2.1⟩

/-- C9: saving the confirmed parameters and constructing a fresh model
instance (which runs load_parameters) reproduces the same confirmed
map; a fresh instance over a store holding some keys reads those keys
and keeps the default 50 for the missing ones; a corrupt or absent
store is tolerated and yields the defaults. -/
theorem params_round_trip :
    (∀ s : State,
        (initModel (save_parameters s).store).confirmed_parameters = s.confirmed_parameters) ∧
    (∀ (m : Param → Option ℚ) (p : Param),
        (initModel (Store.data m)).confirmed_parameters p = (m p).getD 50) ∧
    ((initModel Store.corrupt).confirmed_parameters = fun _ => 50) ∧
    ((initModel Store.absent).confirmed_parameters = fun _ => 50) := by
  refine ⟨?_, ?_, rfl, rfl⟩
  · intro s
    funext p
    simp [initModel, load_parameters, save_parameters]
  · intro m p
    simp [initModel, load_parameters]

/-- State whose series holds one score of 65. -/
def historyState : State :=
  { baseState with performance_history := [65], time_steps := [0], current_time := 1 }

/-- State whose series climbs by 2 per step over 5 points. -/
def historyState5 : State :=
  { baseState with
    performance_history := [10, 12, 14, 16, 18]
    time_steps := [0, 1, 2, 3, 4]
    current_time := 5 }

/-- C6: predict_pass_fail depends only on the most recent score: empty
history gives "No data"; otherwise the label is "High pass chance" iff
the last score is ≥ 70, "Likely to pass" iff it lies in [60, 70),
"Borderline" iff in [50, 60), "Risk of failing" iff in [40, 50), and
"High fail chance" iff it is < 40 — every band inclusive on its lower
bound. -/
theorem predict_pass_fail_spec (s : State) :
    (s.performance_history = [] → predict_pass_fail s = ("No data", "black", "gray")) ∧
    ∀ c, s.performance_history.getLast? = some c →
      (((predict_pass_fail s).1 = "High pass chance") ↔ 70 ≤ c) ∧
      (((predict_pass_fail s).1 = "Likely to pass") ↔ 60 ≤ c ∧ c < 70) ∧
      (((predict_pass_fail s).1 = "Borderline") ↔ 50 ≤ c ∧ c < 60) ∧
      (((predict_pass_fail s).1 = "Risk of failing") ↔ 40 ≤ c ∧ c < 50) ∧
      (((predict_pass_fail s).1 = "High fail chance") ↔ c < 40) := by
  constructor
  · intro h
    simp [predict_pass_fail, h]
  · intro c hc
    simp only [predict_pass_fail, hc]
    split_ifs with h1 h2 h3 h4 <;>
      refine ⟨?_, ?_, ?_, ?_, ?_⟩ <;>
      first
        | exact iff_of_true rfl (by constructor <;> linarith)
        | exact iff_of_true rfl (by linarith)
        | exact iff_of_false (by decide) (fun h => by rcases h with ⟨ha, hb⟩; linarith)
        | exact iff_of_false (by decide) (fun h => by linarith)

/-- Witness for C6: a last score of 65 is classified "Likely to pass". -/
theorem predict_pass_fail_spec_witness :
    historyState.performance_history.getLast? = some 65 ∧
    (predict_pass_fail historyState).1 = "Likely to pass" :=
  ⟨rfl, (((predict_pass_fail_spec historyState).2 65 rfl).2.1).mpr (by norm_num)⟩

/-- C7: predict_trend returns "Not enough data" on histories with fewer
than 2 points; otherwise it fits a least-squares line to the last
min(5, N) (time step, score) pairs and classifies its slope with strict
comparisons at 1.5, 0.5, −0.5 and −1.5, ties falling into the less
extreme bucket. -/
theorem predict_trend_spec (s : State) :
    (s.performance_history.length < 2 → predict_trend s = ("Not enough data", "black")) ∧
    (2 ≤ s.performance_history.length → 2 ≤ s.time_steps.length →
      (((predict_trend s).1 = "Rapid improvement 📈") ↔
          1.5 < polyfitSlope ((lastFive s.time_steps).map (fun t : ℕ => (t : ℚ)))
            (lastFive s.performance_history)) ∧
      (((predict_trend s).1 = "Improving ↗") ↔
          0.5 < polyfitSlope ((lastFive s.time_steps).map (fun t : ℕ => (t : ℚ)))
              (lastFive s.performance_history) ∧
            polyfitSlope ((lastFive s.time_steps).map (fun t : ℕ => (t : ℚ)))
              (lastFive s.performance_history) ≤ 1.5) ∧
      (((predict_trend s).1 = "Stable ↔") ↔
          -0.5 < polyfitSlope ((lastFive s.time_steps).map (fun t : ℕ => (t : ℚ)))
              (lastFive s.performance_history) ∧
            polyfitSlope ((lastFive s.time_steps).map (fun t : ℕ => (t : ℚ)))
              (lastFive s.performance_history) ≤ 0.5) ∧
      (((predict_trend s).1 = "Declining ↘") ↔
          -1.5 < polyfitSlope ((lastFive s.time_steps).map (fun t : ℕ => (t : ℚ)))
              (lastFive s.performance_history) ∧
            polyfitSlope ((lastFive s.time_steps).map (fun t : ℕ => (t : ℚ)))
              (lastFive s.performance_history) ≤ -0.5) ∧
      (((predict_trend s).1 = "Rapid decline 📉") ↔
          polyfitSlope ((lastFive s.time_steps).map (fun t : ℕ => (t : ℚ)))
            (lastFive s.performance_history) ≤ -1.5)) := by
  constructor
  · intro h
    rw [predict_trend, if_pos h]
  · intro h2 ht
    have hxlen : ¬(((lastFive s.time_steps).map (fun t : ℕ => (t : ℚ))).length < 2) := by
      simp only [List.length_map, lastFive, List.length_drop]
      omega
    rw [predict_trend, if_neg (not_lt.2 h2)]
    simp only [if_neg hxlen]
    split_ifs with g1 g2 g3 g4 <;>
      refine ⟨?_, ?_, ?_, ?_, ?_⟩ <;>
      first
        | exact iff_of_true rfl (by constructor <;> linarith)
        | exact iff_of_true rfl (by linarith)
        | exact iff_of_false (by decide) (fun h => by rcases h with ⟨ha, hb⟩; linarith)
        | exact iff_of_false (by decide) (fun h => by linarith)

/-- Witness for C7: scores rising by 2 per step over 5 points have
slope 2 and are classified "Rapid improvement". -/
theorem predict_trend_spec_witness :
    2 ≤ historyState5.performance_history.length ∧
    2 ≤ historyState5.time_steps.length ∧
    (predict_trend historyState5).1 = "Rapid improvement 📈" :=
  ⟨by decide, by decide,
    (((predict_trend_spec historyState5).2 (by decide) (by decide)).1).mpr
      (by norm_num [historyState5, baseState, lastFive, polyfitSlope, dotSum])⟩

/-- A JSON entry all of whose present fields are numeric, as produced
from a plain row of values. -/
def toJsonEntry (r : Param → Option ℚ) : Param → Option JVal :=
  fun p => (r p).map JVal.num

lemma jsonField_toJsonEntry (r : Param → Option ℚ) (p : Param) :
    jsonField (toJsonEntry r) p = Except.ok ((r p).getD 50) := by
  cases h : r p <;> simp [jsonField, toJsonEntry, h]

lemma entryParams_toJsonEntry (r : Param → Option ℚ) :
    entryParams (toJsonEntry r) = Except.ok (rowParams r) := by
  unfold entryParams
  rw [jsonField_toJsonEntry, jsonField_toJsonEntry, jsonField_toJsonEntry,
    jsonField_toJsonEntry, jsonField_toJsonEntry]
  show Except.ok _ = _
  refine congrArg Except.ok ?_
  funext p
  cases p <;> rfl

lemma importCsvRows_fields (rows : List (Param → Option ℚ)) : ∀ s : State,
    (importCsvRows s rows).performance_history
        = s.performance_history ++ rows.map (fun r => scoreOf (rowParams r)) ∧
    (importCsvRows s rows).time_steps
        = s.time_steps ++ (List.range rows.length).map (fun i => s.current_time + i) ∧
    (importCsvRows s rows).current_time = s.current_time + rows.length ∧
    (importCsvRows s rows).pending_parameters = s.pending_parameters ∧
    (importCsvRows s rows).store = s.store ∧
    (importCsvRows s rows).saveCount = s.saveCount ∧
    (importCsvRows s rows).confirmed_parameters
        = (rows.getLast?).elim s.confirmed_parameters rowParams := by
  induction rows with
  | nil =>
      intro s
      simp [importCsvRows]
  | cons r rest ih =>
      intro s
      have hstep : importCsvRows s (r :: rest) =
          importCsvRows
            ((calculate_performance { s with confirmed_parameters := rowParams r }).2) rest := rfl
      obtain ⟨ih1, ih2, ih3, ih4, ih5, ih6, ih7⟩ :=
        ih ((calculate_performance { s with confirmed_parameters := rowParams r }).2)
      rw [hstep]
      refine ⟨?_, ?_, ?_, ?_, ?_, ?_, ?_⟩
      · rw [ih1]
        simp [calculate_performance, scoreOf]
      · rw [ih2]
        show (s.time_steps ++ [s.current_time]) ++ _ = _
        rw [List.append_assoc]
        refine congrArg (s.time_steps ++ ·) ?_
        show s.current_time :: (List.range rest.length).map (fun i => s.current_time + 1 + i)
            = (List.range (rest.length + 1)).map (fun i => s.current_time + i)
        rw [List.range_succ_eq_map, List.map_cons, List.map_map]
        refine congrArg₂ List.cons (by omega) ?_
        refine List.map_congr_left (fun i _ => ?_)
        show s.current_time + 1 + i = s.current_time + (i + 1)
        omega
      · rw [ih3]
        have hc : (calculate_performance
            { s with confirmed_parameters := rowParams r }).2.current_time
              = s.current_time + 1 := rfl
        rw [hc, List.length_cons]
        omega
      · exact ih4
      · exact ih5
      · exact ih6
      · rw [ih7]
        rcases rest with _ | ⟨r2, rest2⟩
        · rfl
        · rw [List.getLast?_cons_cons]
          rfl

lemma importJsonEntries_ok (rows : List (Param → Option ℚ)) : ∀ s : State,
    importJsonEntries s (rows.map toJsonEntry) = (none, importCsvRows s rows) := by
  induction rows with
  | nil => intro s; rfl
  | cons r rest ih =>
      intro s
      show importJsonEntries s (toJsonEntry r :: rest.map toJsonEntry) = _
      rw [importJsonEntries, entryParams_toJsonEntry]
      exact ih _

lemma importJsonEntries_error (e : String) (bad : Param → Option JVal)
    (rest : List (Param → Option JVal)) (hbad : entryParams bad = Except.error e) :
    ∀ (pre : List (Param → Option ℚ)) (s : State),
      importJsonEntries s (pre.map toJsonEntry ++ bad :: rest)
        = (some e, importCsvRows s pre) := by
  intro pre
  induction pre with
  | nil =>
      intro s
      show importJsonEntries s (bad :: rest) = (some e, s)
      rw [importJsonEntries, hbad]
  | cons r rs ih =>
      intro s
      show importJsonEntries s (toJsonEntry r :: (rs.map toJsonEntry ++ bad :: rest)) = _
      rw [importJsonEntries, entryParams_toJsonEntry]
      exact ih _

/-- C2 (amended): on an import file its parser accepts — any CSV, or a
JSON array whose present fields are numeric — import_bulk_data resets
the series, then replays the scoring step once per row in file order —
each row's confirmed set built from the 5 recognized fields with
default 50 for a field that is absent or (CSV only) non-numeric, and
clamped to [0, 100] (rowParams), pending untouched — and finally
persists the confirmed set (the last row's values) and returns success
reporting the number of imported records.  The original claim's
"defaulting to 50 when a field is … non-numeric" is false for JSON,
where a non-numeric present field raises and the import fails — see the
counterexample below. -/
theorem import_bulk_replay (s : State) (f : DataFile) (rows : List (Param → Option ℚ))
    (hfmt : (endsWithStr f.name ".csv" = true ∧ f.csvParse = Except.ok rows) ∨
      (endsWithStr f.name ".csv" = false ∧ endsWithStr f.name ".json" = true ∧
        f.jsonParse = Except.ok (rows.map toJsonEntry))) :
    (import_bulk_data s f).1 = (true, importedMsg rows.length) ∧
    (import_bulk_data s f).2.performance_history
        = rows.map (fun r => scoreOf (rowParams r)) ∧
    (import_bulk_data s f).2.time_steps = List.range rows.length ∧
    (import_bulk_data s f).2.current_time = rows.length ∧
    (import_bulk_data s f).2.pending_parameters = s.pending_parameters ∧
    (rows = [] → (import_bulk_data s f).2.confirmed_parameters = s.confirmed_parameters) ∧
    (∀ r, rows.getLast? = some r →
      (import_bulk_data s f).2.confirmed_parameters = rowParams r ∧
      (import_bulk_data s f).2.store = Store.data (fun p => some (rowParams r p))) ∧
    (import_bulk_data s f).2.saveCount = s.saveCount + 1 := by
  obtain ⟨f1, f2, f3, f4, f5, f6, f7⟩ := importCsvRows_fields rows (resetSeries s)
  have key : import_bulk_data s f =
      ((true, importedMsg (importCsvRows (resetSeries s) rows).performance_history.length),
        save_parameters (importCsvRows (resetSeries s) rows)) := by
    rcases hfmt with ⟨h1, h2⟩ | ⟨h1, h2, h3⟩
    · simp [import_bulk_data, h1, h2]
    · simp [import_bulk_data, h1, h2, h3, importJsonEntries_ok]
  have hlen : (importCsvRows (resetSeries s) rows).performance_history.length
      = rows.length := by
    rw [f1]
    simp [resetSeries]
  rw [key]
  refine ⟨by rw [hlen], ?_, ?_, ?_, ?_, ?_, ?_, ?_⟩
  · show (importCsvRows (resetSeries s) rows).performance_history = _
    rw [f1]
    simp [resetSeries]
  · show (importCsvRows (resetSeries s) rows).time_steps = _
    rw [f2]
    simp [resetSeries]
  · show (importCsvRows (resetSeries s) rows).current_time = _
    rw [f3]
    simp [resetSeries]
  · show (importCsvRows (resetSeries s) rows).pending_parameters = _
    rw [f4]
    rfl
  · intro hrows
    show (importCsvRows (resetSeries s) rows).confirmed_parameters = _
    rw [f7, hrows]
    rfl
  · intro r hr
    have hcp : (importCsvRows (resetSeries s) rows).confirmed_parameters = rowParams r := by
      rw [f7, hr]
      rfl
    exact ⟨hcp, by simp [save_parameters, hcp]⟩
  · show (importCsvRows (resetSeries s) rows).saveCount + 1 = _
    rw [f6]
    rfl

/-- A two-row parsable import file used as witness input. -/
def csvFile : DataFile :=
  { name := "data.csv"
    csvParse := Except.ok [fun _ => some 60, fun _ => none]
    jsonParse := Except.error "unused" }

/-- Witness for C2: importing a two-row CSV file produces two series
points, time steps 0 and 1, and reports 2 imported records. -/
theorem import_bulk_replay_witness :
    endsWithStr csvFile.name ".csv" = true ∧
    (import_bulk_data baseState csvFile).1 = (true, importedMsg 2) ∧
    (import_bulk_data baseState csvFile).2.time_steps = List.range 2 :=
  ⟨by decide,
    (import_bulk_replay baseState csvFile [fun _ => some 60, fun _ => none]
      (Or.inl ⟨by decide, rfl⟩)).1,
    (import_bulk_replay baseState csvFile [fun _ => some 60, fun _ => none]
      (Or.inl ⟨by decide, rfl⟩)).2.2.1⟩

/-- A one-entry JSON import file whose teaching field holds the
non-numeric value "abc". -/
def nonNumericJsonFile : DataFile :=
  { name := "grades.json"
    csvParse := Except.error "unused"
    jsonParse := Except.ok
      [fun p =>
        match p with
        | Param.teaching => some (JVal.str "abc")
        | _ => some (JVal.num 60)] }

/-- C2 counterexample: the claim as stated — every recognized field of
a row defaults to 50 when non-numeric and the import then succeeds with
a count — is false for JSON input: importing a one-entry JSON file
whose teaching field is the string "abc" returns failure (the TypeError
from `max(v, 0)` at line 172 converted by the except of line 182), and
no point is scored for the entry instead of a defaulted one. -/
theorem import_json_non_numeric_counterexample :
    (import_bulk_data baseState nonNumericJsonFile).1.1 = false ∧
    (import_bulk_data baseState nonNumericJsonFile).1.2
        = importFailMsg strIntCompareError ∧
    (import_bulk_data baseState nonNumericJsonFile).2.performance_history = [] :=
  ⟨rfl, rfl, rfl⟩

/-- C10: a file whose name ends in neither ".csv" nor ".json" still
erases the whole series (history and time steps emptied, counter 0),
touches neither parser result, persists the unchanged confirmed
parameters, and returns success reporting 0 imported records.  The
conclusion does not mention csvParse or jsonParse, so it holds whatever
the file's content is — the branches are skipped without reading the
file. -/
theorem import_unknown_extension_spec (s : State) (f : DataFile)
    (h1 : endsWithStr f.name ".csv" = false)
    (h2 : endsWithStr f.name ".json" = false) :
    import_bulk_data s f = ((true, importedMsg 0), save_parameters (resetSeries s)) ∧
    (import_bulk_data s f).2.performance_history = [] ∧
    (import_bulk_data s f).2.time_steps = [] ∧
    (import_bulk_data s f).2.current_time = 0 ∧
    (import_bulk_data s f).2.confirmed_parameters = s.confirmed_parameters ∧
    (import_bulk_data s f).2.pending_parameters = s.pending_parameters ∧
    (import_bulk_data s f).2.store
        = Store.data (fun p => some (s.confirmed_parameters p)) := by
  have key : import_bulk_data s f = ((true, importedMsg 0), save_parameters (resetSeries s)) := by
    simp [import_bulk_data, h1, h2, resetSeries]
  rw [key]
  exact ⟨rfl, rfl, rfl, rfl, rfl, rfl, rfl⟩

/-- A file with an unrecognized extension used as witness input. -/
def txtFile : DataFile :=
  { name := "data.txt"
    csvParse := Except.error "unused"
    jsonParse := Except.error "unused" }

/-- Witness for C10: importing a .txt path empties the series and
reports success with 0 records. -/
theorem import_unknown_extension_spec_witness :
    endsWithStr txtFile.name ".csv" = false ∧
    endsWithStr txtFile.name ".json" = false ∧
    import_bulk_data baseState txtFile
        = ((true, importedMsg 0), save_parameters (resetSeries baseState)) :=
  ⟨by decide, by decide,
    (import_unknown_extension_spec baseState txtFile (by decide) (by decide)).1⟩

/-- C8: every import failure is converted into a (false, message)
result, and the series mutation already performed — the initial
destructive reset, and for a JSON file every row scored before the
failing entry — is left in place, with no rollback and no store
write. -/
theorem import_error_spec (s : State) (f : DataFile) :
    (∀ e, endsWithStr f.name ".csv" = true → f.csvParse = Except.error e →
      import_bulk_data s f = ((false, importFailMsg e), resetSeries s)) ∧
    (∀ e, endsWithStr f.name ".csv" = false → endsWithStr f.name ".json" = true →
      f.jsonParse = Except.error e →
      import_bulk_data s f = ((false, importFailMsg e), resetSeries s)) ∧
    (∀ e (pre : List (Param → Option ℚ)) bad rest,
      endsWithStr f.name ".csv" = false → endsWithStr f.name ".json" = true →
      f.jsonParse = Except.ok (pre.map toJsonEntry ++ bad :: rest) →
      entryParams bad = Except.error e →
      (import_bulk_data s f).1 = (false, importFailMsg e) ∧
      (import_bulk_data s f).2.performance_history
          = pre.map (fun r => scoreOf (rowParams r)) ∧
      (import_bulk_data s f).2.time_steps = List.range pre.length ∧
      (import_bulk_data s f).2.saveCount = s.saveCount ∧
      (import_bulk_data s f).2.store = s.store) := by
  refine ⟨?_, ?_, ?_⟩
  · intro e h1 h2
    simp [import_bulk_data, h1, h2]
  · intro e h1 h2 h3
    simp [import_bulk_data, h1, h2, h3]
  · intro e pre bad rest h1 h2 h3 hbad
    obtain ⟨f1, f2, f3, f4, f5, f6, f7⟩ := importCsvRows_fields pre (resetSeries s)
    have key : import_bulk_data s f
        = ((false, importFailMsg e), importCsvRows (resetSeries s) pre) := by
      simp [import_bulk_data, h1, h2, h3, importJsonEntries_error e bad rest hbad]
    rw [key]
    refine ⟨rfl, ?_, ?_, ?_, ?_⟩
    · rw [f1]
      simp [resetSeries]
    · rw [f2]
      simp [resetSeries]
    · rw [f6]
      rfl
    · rw [f5]
      rfl

/-- A JSON import file whose second entry holds a non-numeric value. -/
def badJsonFile : DataFile :=
  { name := "h.json"
    csvParse := Except.error "unused"
    jsonParse := Except.ok [toJsonEntry (fun _ => some 60), fun _ => some (JVal.str "x")] }

/-- Witness for C8: a JSON file whose second entry is non-numeric fails
with a message, keeping the first entry's series point and writing
nothing to the store. -/
theorem import_error_spec_witness :
    entryParams (fun _ => some (JVal.str "x")) = Except.error strIntCompareError ∧
    (import_bulk_data baseState badJsonFile).1
        = (false, importFailMsg strIntCompareError) ∧
    (import_bulk_data baseState badJsonFile).2.saveCount = baseState.saveCount :=
  ⟨rfl,
    ((import_error_spec baseState badJsonFile).2.2 strIntCompareError
      [fun _ => some 60] (fun _ => some (JVal.str "x")) []
      (by decide) (by decide) rfl rfl).1,
    ((import_error_spec baseState badJsonFile).2.2 strIntCompareError
      [fun _ => some 60] (fun _ => some (JVal.str "x")) []
      (by decide) (by decide) rfl rfl).2.2.2.1⟩

/-! Range-preservation lemmas for the C5 invariant. -/

lemma clampQ_range (v : ℚ) : InRange (clampQ v) := by
  unfold clampQ InRange
  constructor
  · exact le_min (le_max_right v 0) (by norm_num)
  · exact min_le_right _ _

lemma rowParams_range (row : Param → Option ℚ) (p : Param) : InRange (rowParams row p) :=
  clampQ_range _

lemma entryParams_range (e : Param → Option JVal) (c : Param → ℚ)
    (h : entryParams e = Except.ok c) : ∀ p, InRange (c p) := by
  intro p
  unfold entryParams at h
  rcases h1 : jsonField e Param.preparedness with e1 | a <;> rw [h1] at h
  · exact absurd h (by simp [Bind.bind, Except.bind])
  rcases h2 : jsonField e Param.teaching with e2 | b <;> rw [h2] at h
  · exact absurd h (by simp [Bind.bind, Except.bind])
  rcases h3 : jsonField e Param.materials with e3 | c3 <;> rw [h3] at h
  · exact absurd h (by simp [Bind.bind, Except.bind])
  rcases h4 : jsonField e Param.participation with e4 | d <;> rw [h4] at h
  · exact absurd h (by simp [Bind.bind, Except.bind])
  rcases h5 : jsonField e Param.difficulty with e5 | e0 <;> rw [h5] at h
  · exact absurd h (by simp [Bind.bind, Except.bind])
  have hc : c = fun p =>
      match p with
      | Param.preparedness => clampQ a
      | Param.teaching => clampQ b
      | Param.materials => clampQ c3
      | Param.participation => clampQ d
      | Param.difficulty => clampQ e0 := by
    have := h
    simp only [Bind.bind, Except.bind, pure, Except.pure] at this
    exact (Except.ok.inj this).symm
  rw [hc]
  cases p <;> exact clampQ_range _

lemma update_pending_range (ps : List (String × ℚ)) : ∀ s : State,
    ParamsInRange s → (∀ kv ∈ ps, InRange kv.2) →
    ParamsInRange (update_pending_parameters s ps) := by
  induction ps with
  | nil => intro s hs _; exact hs
  | cons kv rest ih =>
      intro s hs hv
      have hstep : update_pending_parameters s (kv :: rest) =
          update_pending_parameters
            (match paramOfName kv.1 with
              | some p =>
                  { s with pending_parameters := Function.update s.pending_parameters p kv.2 }
              | none => s) rest := rfl
      rw [hstep]
      refine ih _ ?_ (fun x hx => hv x (List.mem_cons_of_mem _ hx))
      rcases hname : paramOfName kv.1 with _ | p
      · simpa [hname] using hs
      · simp only [hname]
        intro q
        refine ⟨(hs q).1, ?_⟩
        show InRange (Function.update s.pending_parameters p kv.2 q)
        rcases eq_or_ne q p with rfl | hqp
        · rw [Function.update_same]
          exact hv kv (List.mem_cons_self _ _)
        · rw [Function.update_noteq hqp]
          exact (hs q).2

lemma confirm_range (s : State) (hs : ParamsInRange s) :
    ParamsInRange (confirm_parameters s).2 := by
  unfold confirm_parameters
  rw [confirmLoop_eq _ paramList paramList_nodup]
  by_cases hb : (false || paramList.any
      (fun p => decide (s.confirmed_parameters p ≠ s.pending_parameters p))) = true
  · simp only [hb, if_true]
    intro q
    constructor
    · show InRange (if q ∈ paramList ∧ s.confirmed_parameters q ≠ s.pending_parameters q
          then s.pending_parameters q else s.confirmed_parameters q)
      split_ifs with h
      · exact (hs q).2
      · exact (hs q).1
    · exact (hs q).2
  · simp only [hb, if_false]
    exact hs

lemma importCsvRows_range (rows : List (Param → Option ℚ)) : ∀ s : State,
    ParamsInRange s → ParamsInRange (importCsvRows s rows) := by
  induction rows with
  | nil => intro s hs; exact hs
  | cons r rest ih =>
      intro s hs
      refine ih _ (fun q => ⟨rowParams_range r q, (hs q).2⟩)

lemma importJsonEntries_range (entries : List (Param → Option JVal)) : ∀ s : State,
    ParamsInRange s → ParamsInRange (importJsonEntries s entries).2 := by
  induction entries with
  | nil => intro s hs; exact hs
  | cons e rest ih =>
      intro s hs
      rw [importJsonEntries]
      rcases hc : entryParams e with msg | c
      · exact hs
      · exact ih _ (fun q => ⟨entryParams_range e c hc q, (hs q).2⟩)

lemma import_range (f : DataFile) (s : State) (hs : ParamsInRange s) :
    ParamsInRange (import_bulk_data s f).2 := by
  have hs0 : ParamsInRange (resetSeries s) := hs
  unfold import_bulk_data
  split_ifs with h1 h2
  · rcases hp : f.csvParse with e | rows
    · simpa [hp] using hs0
    · simpa [hp] using fun q =>
        (importCsvRows_range rows (resetSeries s) hs0) q
  · rcases hp : f.jsonParse with e | entries
    · simpa [hp] using hs0
    · have hrange := importJsonEntries_range entries (resetSeries s) hs0
      rcases hrun : importJsonEntries (resetSeries s) entries with ⟨msg | _, s1⟩ <;>
        rw [hrun] at hrange <;> simp only [hp, hrun] <;> exact hrange
  · exact hs0

lemma runOp_range (s : State) (op : Op) (hs : ParamsInRange s)
    (hop : OpValuesInRange op) : ParamsInRange (runOp s op) := by
  cases op with
  | update ps => exact update_pending_range ps s hs hop
  | confirm => exact confirm_range s hs
  | calculate => exact fun q => hs q
  | importData f => exact import_range f s hs

/-- C5 counterexample: the claim fails as stated — for arbitrary values,
update_pending_parameters stores the value unclamped, so after updating
preparedness to 150 from the start state, the pending set holds a value
above 100. -/
theorem update_unclamped_counterexample :
    100 < (runOps baseState
        [Op.update [("preparedness", 150)]]).pending_parameters Param.preparedness := by
  show (100 : ℚ) <
    (update_pending_parameters baseState
      [("preparedness", 150)]).pending_parameters Param.preparedness
  have h : (update_pending_parameters baseState
      [("preparedness", 150)]).pending_parameters Param.preparedness = 150 := by
    show (Function.update baseState.pending_parameters Param.preparedness
        (150 : ℚ)) Param.preparedness = 150
    rw [Function.update_same]
  rw [h]
  norm_num

/-- C5 (amended): after every sequence of model operations in which the
values passed to update_pending_parameters lie in [0, 100] (as the UI's
0–100 sliders guarantee), starting from any state satisfying the
invariant, both parameter sets keep every value in [0, 100].  Both sets
holding exactly the 5 recognized keys is structural in this embedding
(parameter sets are total maps on Param). -/
theorem params_in_range_invariant (s : State) (ops : List Op)
    (hops : ∀ op ∈ ops, OpValuesInRange op) (hs : ParamsInRange s) :
    ParamsInRange (runOps s ops) := by
  induction ops generalizing s with
  | nil => exact hs
  | cons op rest ih =>
      have hstep : runOps s (op :: rest) = runOps (runOp s op) rest := rfl
      rw [hstep]
      exact ih (runOp s op) (fun o ho => hops o (List.mem_cons_of_mem _ ho))
        (runOp_range s op hs (hops op (List.mem_cons_self _ _)))

/-- Witness for the amended C5: a slider update to 80 followed by a
confirm and a recalculation keeps all values in [0, 100]. -/
theorem params_in_range_invariant_witness :
    (∀ op ∈ [Op.update [("teaching", 80)], Op.confirm, Op.calculate], OpValuesInRange op) ∧
    ParamsInRange baseState ∧
    ParamsInRange (runOps baseState
      [Op.update [("teaching", 80)], Op.confirm, Op.calculate]) := by
  have hops0 : ∀ op ∈ [Op.update [("teaching", 80)], Op.confirm, Op.calculate],
      OpValuesInRange op := by
    intro op hop
    fin_cases hop
    · intro kv hkv
      fin_cases hkv
      unfold InRange
      norm_num
    · trivial
    · trivial
  have h50 : InRange (50 : ℚ) := by
    unfold InRange
    norm_num
  have hbase : ParamsInRange baseState := fun q => ⟨h50, h50⟩
  exact ⟨hops0, hbase, params_in_range_invariant baseState _ hops0 hbase⟩

end PassFail
